import Mathlib

/-!
Verification development for the DTBench `dataset_generation` pipeline
(`src/dataset_generation/`).  The Python source is shallowly embedded:
pure computations become Lean functions, LLM calls become oracle
parameters (a list of pre-determined responses), file-system caches
become explicit association lists, and Python exceptions become
`Option`/`Except`-style results.  Each definition carries a comment
naming the source function it embeds.
-/

namespace DTBench

/-! ## Data model (models.py) -/

/-- A JSON cell as it appears in the input table: either a bare string
or a one-element list wrapper (main.py loads raw JSON; planner/refiner
flatten with `h[0] if isinstance(h, list) and h else str(h)`). -/
inductive JCell where
  | str (s : String)
  | arr (l : List String)
deriving DecidableEq

/-- Flattening of one cell, embedding
`h[0] if isinstance(h, list) and h else str(h)`:
a non-empty list yields its first element, an empty list is falsy so
Python falls through to `str([])`. -/
def flatCell : JCell → String
  | .str s => s
  | .arr [] => "[]"
  | .arr (x :: _) => x

/-- The input table record (spec section 6: `header`, `primary_key`,
`data`).  `primary_key` is a single column name or an ordered list of
column names (composite key). -/
structure TableData where
  header : List JCell
  primary_key : String ⊕ List String
  data : List (List JCell)
deriving DecidableEq

/-- models.StrategyAssignment: mapping from cell key `"pk,attr"` to a
list of strategy tags.  A Python dict is embedded as an association
list whose keys are distinct. -/
structure StrategyAssignment where
  assignments : List (String × List String)
deriving DecidableEq

/-- models.FactWritingGuidance.  `sub_facts` (a Python dict) is an
association list from sub-fact statement to sub-guidance.  The source
field `attribute` is named `attr` here because `attribute` is a Lean
keyword. -/
structure FactWritingGuidance where
  primary_key : String
  attr : String
  fact : String
  writing_guidance : String
  sub_facts : List (String × String)
deriving DecidableEq

/-- models.SectionPlan. -/
structure SectionPlan where
  section_id : Nat
  title : String
  goal : String
  summary : String
  facts : List String
deriving DecidableEq

/-- models.DocumentPlan. -/
structure DocumentPlan where
  theme : String
  genre : String
  sections : List SectionPlan
deriving DecidableEq

/-- models.Section. -/
structure Section where
  section_id : Nat
  title : String
  content : String
  verified : Bool
deriving DecidableEq

/-- One entry of models.VerificationResult.errors, declared in
models.py as an error object with a `description` and a `suggestion`. -/
structure VError where
  description : String
  suggestion : String
deriving DecidableEq

/-- models.VerificationResult. -/
structure VerificationResult where
  ok : Bool
  errors : List VError
deriving DecidableEq

/-! ## Planner helpers (planner_agent.py) -/

/-- `StrategicPlannerAgent._parse_table_header`, flattened header part:
`[h[0] if isinstance(h, list) and h else str(h) for h in table_data["header"]]`. -/
def flatHeader (t : TableData) : List String :=
  t.header.map flatCell

/-- The primary-key column indexes computed by `_parse_table_header`:
`header.index(pk)` for a single key, `[header.index(pk) for pk in primary_key]`
for a composite key.  `List.idxOf` agrees with Python `.index` whenever
the column name occurs in the header (theorems using this assume the
table is well formed, i.e. key columns occur in the header). -/
def pkIndexes (t : TableData) : List Nat :=
  match t.primary_key with
  | .inl pk => [(flatHeader t).indexOf pk]
  | .inr pks => pks.map (flatHeader t).indexOf

/-- The flattened row: `[str(c[0]) if isinstance(c, list) and c else str(c) for c in row]`. -/
def flatRow (row : List JCell) : List String :=
  row.map flatCell

/-- The row's primary-key value: for a composite key the values at the
key indexes joined with `", "`, otherwise the single value at the key
index (`_get_nonempty_cells` / `_build_row_lookup`). -/
def rowPk (t : TableData) (fr : List String) : String :=
  match t.primary_key with
  | .inl pk => fr.getD ((flatHeader t).indexOf pk) ""
  | .inr _ => String.intercalate ", " ((pkIndexes t).map (fun i => fr.getD i ""))

/-- The Python cell filter `if val and str(val).strip():` — truthy
value with truthy `.strip()`, i.e. the string contains at least one
non-whitespace character (stated over the character list so it
computes by structural recursion). -/
def pyNonBlank (val : String) : Bool :=
  val.data.any (fun ch => !ch.isWhitespace)

/-- `StrategicPlannerAgent._get_nonempty_cells` applied to one row:
every column index that is not a key index and whose flattened value is
non-blank contributes the key `f"{row_pk},{col_name}"`. -/
def rowCells (t : TableData) (row : List JCell) : List String :=
  let fr := flatRow row
  if fr.isEmpty then []
  else
    let pk := rowPk t fr
    ((flatHeader t).enum.filterMap (fun p =>
      if p.1 ∈ pkIndexes t then none
      else
        let val := fr.getD p.1 ""
        if pyNonBlank val then some (pk ++ "," ++ p.2) else none))

/-- `StrategicPlannerAgent._get_nonempty_cells` as a duplicate-free
list: the cell keys of all non-empty, non-primary-key cells.  The
Python function returns a `set`, whose iteration order is unspecified;
only membership matters downstream. -/
def nonemptyCellsList (t : TableData) : List String :=
  ((t.data.map (rowCells t)).flatten).dedup

/-- `StrategicPlannerAgent._get_nonempty_cells`: the set of cell keys
of all non-empty, non-primary-key cells (the Python function returns a
`set`). -/
def nonemptyCells (t : TableData) : Finset String :=
  (nonemptyCellsList t).toFinset

/-- `StrategicPlannerAgent._validate_strategy_assignment`: computes
`missing = expected_cells - assigned_cells` and rejects exactly when it
is non-empty (the returned error string is non-empty iff `missing` is
non-empty); extra keys are not examined.  `true` means accepted. -/
def validateStrategyAssignment (a : StrategyAssignment) (t : TableData) : Bool :=
  (nonemptyCells t \ (a.assignments.map Prod.fst).toFinset) = ∅

/-! ## Strategy assignment (planner_agent.assign_strategies) -/

/-- One attempt of the enabled branch of `assign_strategies`, as seen
through the LLM oracle: either the call/parse raised an exception, or
it produced a flattened assignment record. -/
inductive AssignAttempt where
  | excA
  | resp (a : StrategyAssignment)
deriving DecidableEq

/-- The retry loop of `assign_strategies` (enabled branch): up to
`fuel = PLAN_MAX_RETRIES` attempts, each drawing the next oracle
response; a response is returned iff `_validate_strategy_assignment`
accepts it; exceptions and rejections both continue the loop; fuel
exhaustion models the final `raise RuntimeError`.  The second
component counts LLM generation calls actually issued. -/
def assignStrategiesLoop (t : TableData) :
    List AssignAttempt → Nat → Option StrategyAssignment × Nat
  | _, 0 => (none, 0)
  | [], _ + 1 => (none, 0)
  | .excA :: rest, fuel + 1 =>
      let r := assignStrategiesLoop t rest fuel
      (r.1, r.2 + 1)
  | .resp a :: rest, fuel + 1 =>
      if validateStrategyAssignment a t then (some a, 1)
      else
        let r := assignStrategiesLoop t rest fuel
        (r.1, r.2 + 1)

/-- `config.PLAN_MAX_RETRIES`. -/
def PLAN_MAX_RETRIES : Nat := 3

/-- `config.VERIFY_AND_REPAIR_MAX_RETRIES`. -/
def VERIFY_AND_REPAIR_MAX_RETRIES : Nat := 4

/-- `StrategicPlannerAgent.assign_strategies`.  When
`ENABLE_STRATEGY_ASSIGNMENT` is false it short-circuits: it builds
`{cell_key: [] for cell_key in expected_cells}` from
`_get_nonempty_cells` and returns without any LLM call; otherwise it
runs the validate-retry loop over the oracle.  The `Nat` component is
the number of generation calls issued. -/
def assignStrategies (enable : Bool) (t : TableData)
    (oracle : List AssignAttempt) : Option StrategyAssignment × Nat :=
  if enable then assignStrategiesLoop t oracle PLAN_MAX_RETRIES
  else
    (some ⟨(nonemptyCellsList t).map (fun c => (c, []))⟩, 0)

/-! ## Document planning (planner_agent.plan_document) -/

/-- The concatenation of all sections' fact lists
(`planned_facts` in `_validate_document_plan`). -/
def plannedFacts (plan : DocumentPlan) : List String :=
  (plan.sections.map (·.facts)).flatten

/-- `missing = expected_set - planned_set` in `_validate_document_plan`. -/
def missingFacts (facts : List String) (plan : DocumentPlan) : Finset String :=
  facts.toFinset \ (plannedFacts plan).toFinset

/-- `duplicates = [f for f, c in Counter(planned_facts).items() if c > 1]`
in `_validate_document_plan`.  `Counter` iterates keys in
first-occurrence order while `dedup` keeps last occurrences; the two
lists always have the same members and in particular are empty
together, which is all the validator and its error report depend on. -/
def duplicateFacts (plan : DocumentPlan) : List String :=
  (plannedFacts plan).dedup.filter (fun f => 1 < (plannedFacts plan).count f)

/-- `StrategicPlannerAgent._validate_document_plan`: the error message
is empty exactly when both the missing set and the duplicate list are
empty; otherwise the message reports the missing set and the duplicate
list.  The message's payload is kept structured here (the source
renders it into an f-string). -/
def documentPlanError (facts : List String) (plan : DocumentPlan) :
    Option (Finset String × List String) :=
  if missingFacts facts plan = ∅ ∧ duplicateFacts plan = [] then none
  else some (missingFacts facts plan, duplicateFacts plan)

/-- The fact-ID table built at the top of `plan_document`
(`fact_id_to_string`, ids are `str(idx)` for `idx` starting at 1). -/
def factIdTable (facts : List String) : List (String × String) :=
  facts.enum.map (fun p => (toString (p.1 + 1), p.2))

/-- The ID-to-string conversion applied to a parsed plan in
`plan_document`: a fact entry that is a known ID is replaced by its
fact string, anything else ("the full fact string instead of ID") is
kept verbatim. -/
def convertFactIds (facts : List String) (plan : DocumentPlan) : DocumentPlan :=
  { plan with
    sections := plan.sections.map (fun s =>
      { s with facts := s.facts.map (fun fid =>
          (((factIdTable facts).lookup fid).getD fid)) }) }

/-- Conversation messages threaded through the plan retry loop.  The
source appends plain chat strings; the validator feedback's payload is
kept structured (the missing set and the duplicate list it reports). -/
inductive PlanMessage where
  | assistantMsg (raw : String)
  | feedback (missing : Finset String) (duplicates : List String)
deriving DecidableEq

/-- One attempt of `plan_document` as seen through the LLM oracle:
either the generate/parse raised, or it yielded the raw response text
together with the parsed `DocumentPlan`. -/
inductive PlanAttempt where
  | excA
  | resp (raw : String) (data : DocumentPlan)
deriving DecidableEq

/-- The retry loop of `plan_document`: up to `fuel = PLAN_MAX_RETRIES`
attempts; an exception leaves the messages untouched and retries; a
parsed plan is ID-converted and validated; on acceptance it is
returned, on rejection the rejected raw output and the validator's
error are appended to the messages and the loop retries; exhaustion
models the final `raise RuntimeError`. -/
def planDocumentLoop (facts : List String) :
    List PlanAttempt → List PlanMessage → Nat → Option DocumentPlan × List PlanMessage
  | _, msgs, 0 => (none, msgs)
  | [], msgs, _ + 1 => (none, msgs)
  | .excA :: rest, msgs, fuel + 1 => planDocumentLoop facts rest msgs fuel
  | .resp raw data :: rest, msgs, fuel + 1 =>
      let plan := convertFactIds facts data
      match documentPlanError facts plan with
      | none => (some plan, msgs)
      | some err =>
          planDocumentLoop facts rest
            (msgs ++ [.assistantMsg raw, .feedback err.1 err.2]) fuel

/-- `StrategicPlannerAgent.plan_document`, with the initial messages
(system + user prompt) abstracted as `msgs0`. -/
def planDocument (facts : List String) (oracle : List PlanAttempt)
    (msgs0 : List PlanMessage) : Option DocumentPlan × List PlanMessage :=
  planDocumentLoop facts oracle msgs0 PLAN_MAX_RETRIES

/-! ## Refinement stage (refiner_agent.py) -/

/-- The split branch of `RefinementAgent._generate_fact_guidance`
(`is_split` true): the record is built with `writing_guidance=""` and
the generated sub-fact mapping. -/
def splitFactGuidance (pk attrName main_fact : String)
    (subs : List (String × String)) : FactWritingGuidance :=
  ⟨pk, attrName, main_fact, "", subs⟩

/-- The possible outcomes of `RefinementAgent._process_single_cell`
for one cell, as seen by the fan-out collector:
`missingRow` — `row_lookup` has no entry for the key, so the subscript
`row = row_lookup[pk]` raises an uncaught `KeyError`;
`emptyRow` — the entry exists but is falsy (an empty dict, possible
only for an empty-header table), so the `if not row:` guard logs and
returns `None`; `guidanceExhausted` — `_generate_cell_guidance`
returned `None` after all retries and the function raises
`RuntimeError`; `factExhausted` — `_generate_fact_guidance` returned
`None` after all retries, which the function returns as-is;
`success` — a `FactWritingGuidance` was produced. -/
inductive CellOutcome where
  | missingRow
  | emptyRow
  | guidanceExhausted
  | factExhausted
  | success (f : FactWritingGuidance)
deriving DecidableEq

/-- `RefinementAgent._process_single_cell`, collapsed to its outcome:
`Except.error` models an exception escaping the function (the
`KeyError` of `row_lookup[pk]` for an absent row, or the explicit
`raise RuntimeError`), `Option` the possibly-`None` return value. -/
def processSingleCell : CellOutcome → Except String (Option FactWritingGuidance)
  | .missingRow => .error "KeyError"
  | .emptyRow => .ok none
  | .guidanceExhausted =>
      .error "Failed to generate cell guidance after all retries."
  | .factExhausted => .ok none
  | .success f => .ok (some f)

/-- The result-collection loop of `RefinementAgent.refine_all_cells`:
`result = future.result()` is not wrapped in try/except, so a unit
that raised propagates its exception out of `refine_all_cells`;
otherwise `None` results are skipped (`if result:`) and the rest are
appended to `fact_list`. -/
def refineAllCellsCollect :
    List CellOutcome → Except String (List FactWritingGuidance)
  | [] => .ok []
  | o :: rest =>
      match processSingleCell o with
      | .error e => .error e
      | .ok none => refineAllCellsCollect rest
      | .ok (some f) => (refineAllCellsCollect rest).map (f :: ·)

/-- The result-collection loop of the write fan-out in
`main.process_task` (Step 3): `future.result()` is wrapped in
try/except, a raising unit only logs and leaves its slot `None`, and
the final `sections = [s for s in sections if s is not None]` drops
the `None` slots.  `none` models a unit whose task raised. -/
def writeSectionsCollect (outcomes : List (Option Section)) : List Section :=
  outcomes.filterMap id

/-! ## Writer and verifier fact-line construction
(writer_agent.py, verifier_agent.py) -/

/-- The `(fact, guidance)` pairs emitted for one consulted fact string
by `WriterAgent.write_section`: a sub-fact uses only its own
sub-guidance; a main fact with a non-empty sub-fact mapping is
replaced by all its sub-facts; otherwise the main fact with the
top-level writing guidance. -/
def writeFactEntryPairs (o : FactWritingGuidance) (fact_str : String) :
    List (String × String) :=
  match o.sub_facts.lookup fact_str with
  | some g => [(fact_str, g)]
  | none =>
      if o.sub_facts.isEmpty then [(fact_str, o.writing_guidance)]
      else o.sub_facts

/-- The pairs emitted for one consulted fact string by
`VerifierAgent.verify_section`; the branching is identical to
`write_section` (the rendered lines additionally carry the cell key,
which does not affect which facts/guidance appear). -/
def verifyFactEntryPairs (o : FactWritingGuidance) (fact_str : String) :
    List (String × String) :=
  match o.sub_facts.lookup fact_str with
  | some g => [(fact_str, g)]
  | none =>
      if o.sub_facts.isEmpty then [(fact_str, o.writing_guidance)]
      else o.sub_facts

/-- The pairs emitted for one consulted fact string by
`WriterAgent.repair_section`: a sub-fact uses only its own
sub-guidance, but any other consulted string — including the main fact
of a record that has sub-facts — contributes the consulted string with
the top-level writing guidance FOLLOWED BY all sub-facts. -/
def repairFactEntryPairs (o : FactWritingGuidance) (fact_str : String) :
    List (String × String) :=
  match o.sub_facts.lookup fact_str with
  | some g => [(fact_str, g)]
  | none => (fact_str, o.writing_guidance) :: o.sub_facts

/-- The rendered line `f"- **Fact:** {fact}\n  **Guidance:** {g}"`. -/
def mkFactLine (fact guidance : String) : String :=
  "- **Fact:** " ++ fact ++ "\n  **Guidance:** " ++ guidance

/-- The reverse lookup `fact_lookup` built at the top of
`write_section`, `repair_section` and `verify_section`: every record is
registered under its main fact and under each of its sub-facts; as in
a Python dict, a later registration wins on key collision. -/
def factLookup (objs : List FactWritingGuidance) (s : String) :
    Option FactWritingGuidance :=
  (((objs.map (fun o => (o.fact, o) :: o.sub_facts.map (fun sf => (sf.1, o)))).flatten).reverse.find?
    (fun p => p.1 == s)).map (·.2)

/-- The `facts_with_guidance` list of `write_section`: consulted fact
strings not registered in the lookup are skipped. -/
def writeSectionFactLines (plan : SectionPlan)
    (objs : List FactWritingGuidance) : List String :=
  ((plan.facts.map (fun s =>
    match factLookup objs s with
    | none => []
    | some o => (writeFactEntryPairs o s).map (fun p => mkFactLine p.1 p.2))).flatten)

/-- The `facts_with_guidance` list of `repair_section`. -/
def repairSectionFactLines (plan : SectionPlan)
    (objs : List FactWritingGuidance) : List String :=
  ((plan.facts.map (fun s =>
    match factLookup objs s with
    | none => []
    | some o => (repairFactEntryPairs o s).map (fun p => mkFactLine p.1 p.2))).flatten)

/-! ## Verify / repair agents (verifier_agent.py, writer_agent.py) -/

/-- The outcome of the protected region (`try:` block) of an
agent call: the LLM call succeeded and its output parsed into the
expected shape, or any exception occurred inside the block (generation
error, unparsable output, schema mismatch). -/
inductive LLMOutcome (α : Type) where
  | ok (a : α)
  | failed
deriving DecidableEq

/-- `VerifierAgent.verify_section`, collapsed over the prompt
construction: a successful call returns the parsed
`VerificationResult`; the `except` branch returns
`VerificationResult(ok=False, errors=[{"description": ..., "suggestion": "Retry"}])`
(the description interpolates the exception text, abstracted here). -/
def verify_sectionM (oracle : LLMOutcome VerificationResult) : VerificationResult :=
  match oracle with
  | .ok r => r
  | .failed => ⟨false, [⟨"Verification error", "Retry"⟩]⟩

/-- `WriterAgent.repair_section`, collapsed over the prompt
construction: a successful call returns the repaired content; the
`except` branch returns the original content unchanged. -/
def repair_sectionM (oracle : LLMOutcome String) (original_content : String) : String :=
  match oracle with
  | .ok c => c
  | .failed => original_content

/-! ## Per-job cache and the write / verify-repair pipeline (main.py) -/

/-- The per-section staging cache (`cache/section_<id>.json` files): an
association map from section id to the last record stored by
`write_json`.  A file that exists but no longer deserializes behaves
exactly like an absent entry (every reader treats deserialization
failure as a cache miss), so corrupt files are modelled as absent. -/
abbrev SectionCache := List (Nat × Section)

/-- `write_json(cache_path, section.model_dump())`: overwrite the
per-id artifact. -/
def cacheStore (c : SectionCache) (s : Section) : SectionCache :=
  (s.section_id, s) :: c.filter (fun p => p.1 ≠ s.section_id)

/-- `read_json(cache_path)` + `Section(**data)` for the per-id
artifact. -/
def cacheFind (c : SectionCache) (i : Nat) : Option Section :=
  (c.find? (fun p => p.1 == i)).map (·.2)

/-- The fallible part of one unit of the Step-3 write fan-out:
`generated content` — `writer.write_section` returned `content`
(that function never raises; on an LLM failure it returns `""`);
`excW` — the task raised (e.g. an I/O error), which the collector
catches and logs. -/
inductive WriteOutcome where
  | generated (content : String)
  | excW
deriving DecidableEq

/-- `main.write_section_task`: a cache artifact that loads
short-circuits the write; otherwise the section is written (landing
unverified) and stored to its cache file; a raising task produces
nothing and is modelled as leaving its cache file untouched. -/
def write_section_taskM (plan : SectionPlan) (o : WriteOutcome)
    (c : SectionCache) : Option Section × SectionCache :=
  match cacheFind c plan.section_id with
  | some s => (some s, c)
  | none =>
      match o with
      | .generated content =>
          let s : Section := ⟨plan.section_id, plan.title, content, false⟩
          (some s, cacheStore c s)
      | .excW => (none, c)

/-- The Step-3 fan-out over all planned sections.  The source runs the
tasks concurrently, but each task reads and writes only its own
per-id cache file, so a sequential fold over the plans is an
equivalent schedule; results are recombined by index, preserving plan
order. -/
def writeStage : List SectionPlan → List WriteOutcome → SectionCache →
    List (Option Section) × SectionCache
  | [], _, c => ([], c)
  | p :: ps, outs, c =>
      let r := write_section_taskM p (outs.headD .excW) c
      let rest := writeStage ps outs.tail r.2
      (r.1 :: rest.1, rest.2)

/-- `main.verify_repair_section_task`: verify; on success mark
verified and store to cache; on failure repair the content, reset the
flag, and store to cache.  Every transition persists the latest
section state to its cache file. -/
def verify_repair_section_taskM (s : Section)
    (vOracle : LLMOutcome VerificationResult) (rOracle : LLMOutcome String)
    (c : SectionCache) : Section × SectionCache :=
  let verification := verify_sectionM vOracle
  if verification.ok then
    let s₁ := { s with verified := true }
    (s₁, cacheStore c s₁)
  else
    let s₁ := { s with content := repair_sectionM rOracle s.content,
                       verified := false }
    (s₁, cacheStore c s₁)

/-- The per-round oracle: for a section id, the outcomes of its verify
call and (if needed) its repair call. -/
abbrev VROracle := Nat → LLMOutcome VerificationResult × LLMOutcome String

/-- One verify/repair round of `main.process_task` Step 4: every
currently unverified section that has a matching section plan is run
through `verify_repair_section_task` and replaced in the document
(matched back by section id); a section without a matching plan is not
submitted and stays as it is.  As in Step 3, units touch disjoint
cache files, so a sequential fold is an equivalent schedule. -/
def vrRound (plans : List SectionPlan) (oracle : VROracle) :
    List Section → SectionCache → List Section × SectionCache
  | [], c => ([], c)
  | s :: ss, c =>
      if s.verified then
        let rest := vrRound plans oracle ss c
        (s :: rest.1, rest.2)
      else if (plans.find? (fun sp => sp.section_id == s.section_id)).isSome then
        let r := verify_repair_section_taskM s (oracle s.section_id).1
          (oracle s.section_id).2 c
        let rest := vrRound plans oracle ss r.2
        (r.1 :: rest.1, rest.2)
      else
        let rest := vrRound plans oracle ss c
        (s :: rest.1, rest.2)

/-- The bounded verify/repair loop of Step 4: up to
`VERIFY_AND_REPAIR_MAX_RETRIES` rounds, stopping early when no
unverified section remains. -/
def vrLoop (plans : List SectionPlan) (oracle : Nat → VROracle) :
    Nat → List Section → SectionCache → List Section × SectionCache
  | 0, ss, c => (ss, c)
  | fuel + 1, ss, c =>
      if ss.all (·.verified) then (ss, c)
      else
        let r := vrRound plans (oracle fuel) ss c
        vrLoop plans oracle fuel r.1 r.2

/-- The final artifact file `final_document.md`: absent, opened and
partly written, or fully written and closed. -/
inductive Artifact where
  | absent
  | partWritten (written : List String)
  | complete (written : List String)
deriving DecidableEq

/-- The terminal state of one job: the final artifact, whether the
staging cache directory was removed, and the cache contents while it
is alive. -/
structure PipeEnd where
  artifact : Artifact
  cacheDeleted : Bool
  cache : SectionCache
deriving DecidableEq

/-- The commit gate and cleanup at the end of `main.process_task`:
if `verified_count != len(document.sections)` the function returns
without writing the final artifact and without touching the cache;
otherwise it writes every section's content to `final_document.md`
and only then removes the cache directory. -/
def commitPhase (ss : List Section) (c : SectionCache) : PipeEnd :=
  if ss.countP (·.verified) ≠ ss.length then ⟨.absent, false, c⟩
  else ⟨.complete (ss.map (·.content)), true, c⟩

/-- The ordered intermediate states (artifact, cacheDeleted) that the
commit-and-cleanup code passes through, one per atomic step: the gate
check, each section content appended to the open file, the file
close, and finally the cache removal.  An execution that stops early
at any point observes a state in this list. -/
def commitStates (ss : List Section) : List (Artifact × Bool) :=
  if ss.countP (·.verified) ≠ ss.length then [(.absent, false)]
  else
    (.absent, false) ::
    ((List.range (ss.length + 1)).map
      (fun k => (.partWritten ((ss.take k).map (·.content)), false))) ++
    [(.complete (ss.map (·.content)), false),
     (.complete (ss.map (·.content)), true)]

/-- Steps 3–5 of `main.process_task` for one job, end to end: write
fan-out, unit-failure filtering, bounded verify/repair loop, commit
gate and cleanup. -/
def processTaskPipeline (plans : List SectionPlan)
    (wouts : List WriteOutcome) (vrOracle : Nat → VROracle)
    (c0 : SectionCache) : List Section × PipeEnd :=
  let w := writeStage plans wouts c0
  let sections := writeSectionsCollect w.1
  let v := vrLoop plans vrOracle VERIFY_AND_REPAIR_MAX_RETRIES sections w.2
  (v.1, commitPhase v.1 v.2)

/-! ## Stage cache short-circuit (main.py / refiner_agent.py cache sites) -/

/-- The observable state of one stage cache artifact on disk:
absent, present but failing deserialization, or present and
deserializing into a record. -/
inductive CacheFile (α : Type) where
  | absent
  | corruptFile
  | valid (a : α)
deriving DecidableEq

/-- The load-or-regenerate pattern shared verbatim by every stage
cache site: the strategy-assignment, fact-guidance and document-plan
loads in `main.process_task`, the per-section load in
`main.write_section_task`, and the per-cell loads in
`RefinementAgent._process_single_cell` / `_generate_cell_guidance`.
If the artifact exists, try to deserialize; on success, use the loaded
record without calling the generator; on failure, log and fall
through; without a usable artifact, invoke the generator and store its
record.  Returns the record used, whether the generator was invoked,
and the resulting artifact state. -/
def loadStageArtifact (file : CacheFile α) (generate : α) :
    α × Bool × CacheFile α :=
  match file with
  | .valid a => (a, false, .valid a)
  | .corruptFile => (generate, true, .valid generate)
  | .absent => (generate, true, .valid generate)

/-! ## Concrete instances used by the theorems below -/

/-- A table with 2 rows, a single primary key `id`, and 3 fully
populated non-key columns (the spec's strategy-assignment scenario). -/
def tScenario : TableData :=
  ⟨[.str "id", .str "a", .str "b", .str "c"], .inl "id",
   [[.str "r1", .str "x1", .str "y1", .str "z1"],
    [.str "r2", .str "x2", .str "y2", .str "z2"]]⟩

/-- A one-row table with primary key `id` and one non-key column `a`. -/
def tSmall : TableData :=
  ⟨[.str "id", .str "a"], .inl "id", [[.str "r1", .str "v1"]]⟩

/-- A strategy assignment for `tSmall` that covers the one eligible
cell `"r1,a"` but additionally carries an entry for the primary-key
cell `"r1,id"` of row `r1`. -/
def aExtra : StrategyAssignment := ⟨[("r1,a", []), ("r1,id", [])]⟩

/-- A strategy assignment for `tSmall` with exactly the eligible cell. -/
def aExact : StrategyAssignment := ⟨[("r1,a", [])]⟩

/-- The fact universe of the spec's document-plan scenario. -/
def factsScenario : List String := ["1", "2", "3"]

/-- The accepted plan of the scenario: facts 1,2 in section 0 and
fact 3 in section 1. -/
def planGoodScenario : DocumentPlan :=
  ⟨"th", "ge", [⟨0, "s0", "g0", "m0", ["1", "2"]⟩, ⟨1, "s1", "g1", "m1", ["3"]⟩]⟩

/-- The rejected plan of the scenario: facts 1,2,3 in section 0 and
fact 3 again in section 1. -/
def planBadScenario : DocumentPlan :=
  ⟨"th", "ge", [⟨0, "s0", "g0", "m0", ["1", "2", "3"]⟩, ⟨1, "s1", "g1", "m1", ["3"]⟩]⟩

/-- A plan over the fact universe `["A"]` whose only section carries
the input fact `A` once and additionally the foreign fact `B`. -/
def planWithExtra : DocumentPlan := ⟨"t", "g", [⟨0, "a", "b", "c", ["A", "B"]⟩]⟩

/-- A correct plan over the fact universe `["A"]`. -/
def planOnlyA : DocumentPlan := ⟨"t", "g", [⟨0, "a", "b", "c", ["A"]⟩]⟩

/-- A fact-guidance record whose sub-fact mapping is non-empty (a split
fact): parent fact `F`, sub-facts `S1`, `S2`. -/
def gSplit : FactWritingGuidance := ⟨"pk", "col", "F", "", [("S1", "g1"), ("S2", "g2")]⟩

/-- A plain fact-guidance record without sub-facts. -/
def gPlain : FactWritingGuidance := ⟨"pk2", "col2", "G", "gw", []⟩

/-- A section plan consulting the split fact by its parent statement. -/
def planConsultF : SectionPlan := ⟨0, "t", "g", "s", ["F"]⟩

/-- A section used in concrete pipeline runs. -/
def sOne : Section := ⟨0, "t0", "c0", false⟩

/-- A verified section used in concrete commit-phase runs. -/
def sDone : Section := ⟨0, "t0", "c0", true⟩

/-- One planned section (id 0). -/
def spZero : SectionPlan := ⟨0, "t0", "g0", "m0", []⟩

/-- A second planned section (id 1). -/
def spOne : SectionPlan := ⟨1, "t1", "g1", "m1", []⟩

/-- A verify/repair oracle that always passes verification. -/
def orcAllPass : Nat → VROracle := fun _ _ => (.ok ⟨true, []⟩, .failed)

/-- A verify/repair oracle whose verify call always fails internally. -/
def orcAllFail : Nat → VROracle := fun _ _ => (.failed, .failed)

/-! ## Helper lemmas -/

theorem lookup_mem {β : Type} {l : List (String × β)} {k : String} {v : β}
    (h : l.lookup k = some v) : (k, v) ∈ l := by
  rw [List.lookup_eq_some_iff] at h
  obtain ⟨l₁, l₂, rfl, -⟩ := h
  simp

theorem lookup_eq_none_of_not_mem {β : Type} {l : List (String × β)} {k : String}
    (h : k ∉ l.map Prod.fst) : l.lookup k = none := by
  rw [List.lookup_eq_none_iff]
  intro p hp
  simp only [bne_iff_ne, ne_eq]
  intro hk
  exact h (hk ▸ List.mem_map_of_mem Prod.fst hp)

theorem cacheFind_store (c : SectionCache) (s : Section) (i : Nat) :
    cacheFind (cacheStore c s) i =
      if i = s.section_id then some s else cacheFind c i := by
  by_cases h : i = s.section_id
  · simp [cacheFind, cacheStore, h]
  · have hne : (s.section_id == i) = false := by
      simp
      exact fun hh => h hh.symm
    simp only [cacheFind, cacheStore, List.find?, hne, if_neg h]
    congr 1
    rw [List.find?_filter]
    congr 1
    funext p
    by_cases hp : p.1 = i
    · simp [hp, h]
    · simp [hp]

/-! ## Claim theorems -/

/-- C7: for every stage with a cache artifact, an artifact that exists
and deserializes short-circuits the stage — the generation call is not
invoked and the loaded record is used; an artifact that exists but
fails to deserialize is a cache miss — the stage regenerates (and
re-stores) without failing the job, exactly as when the artifact is
absent. -/
theorem claim_C7_cache_hit_short_circuit :
    ∀ (α : Type) (a g : α),
      loadStageArtifact (CacheFile.valid a) g = (a, false, CacheFile.valid a) ∧
      loadStageArtifact CacheFile.corruptFile g = (g, true, CacheFile.valid g) ∧
      loadStageArtifact CacheFile.absent g = (g, true, CacheFile.valid g) :=
  fun _ _ _ => ⟨rfl, rfl, rfl⟩

/-- C8: over the fact universe `{1,2,3}`, the plan assigning
`{1,2}` to section 0 and `{3}` to section 1 is accepted and returned;
the plan assigning `{1,2,3}` to section 0 and `{3}` to section 1 is
rejected with fact `3` in the reported duplicate set, and the retry
happens with the rejected raw output and that error appended to the
conversational context, after which the corrected plan is returned. -/
theorem claim_C8_duplicate_scenario :
    documentPlanError factsScenario planGoodScenario = none ∧
    planDocument factsScenario [PlanAttempt.resp "rawGood" planGoodScenario] [] =
      (some planGoodScenario, []) ∧
    documentPlanError factsScenario planBadScenario = some (∅, ["3"]) ∧
    planDocument factsScenario
        [PlanAttempt.resp "rawBad" planBadScenario,
         PlanAttempt.resp "rawGood" planGoodScenario] [] =
      (some planGoodScenario,
       [PlanMessage.assistantMsg "rawBad", PlanMessage.feedback ∅ ["3"]]) := by
  refine ⟨by decide, by decide, by decide, by decide⟩

/-- C2 (counterexample): the collection loop of `refine_all_cells`
does not catch a raising unit — a cell whose cell-guidance generation
exhausted its retries (`RuntimeError`) or whose row is absent from
`row_lookup` (`KeyError` at `row = row_lookup[pk]`) aborts the whole
stage with the exception, discarding the sibling unit's completed
result, instead of the failed unit being excluded from the
aggregate. -/
theorem claim_C2_counterexample :
    refineAllCellsCollect [CellOutcome.success gPlain, CellOutcome.guidanceExhausted] =
      Except.error "Failed to generate cell guidance after all retries." ∧
    refineAllCellsCollect [CellOutcome.success gPlain, CellOutcome.missingRow] =
      Except.error "KeyError" :=
  ⟨rfl, rfl⟩

/-- C2 (amended): in the write fan-out, a failed unit is excluded and
the aggregate holds exactly the successful units; in the refine
fan-out the same holds only for units that fail by returning no result
(a falsy row entry, fact-guidance exhaustion) — a cell whose row is
absent from the lookup raises `KeyError` and a cell whose
cell-guidance generation exhausts retries raises `RuntimeError`, and
either aborts the whole stage, so the amended guarantee for refine is
conditional on no unit raising. -/
theorem claim_C2_fanout_isolation :
    (∀ (outcomes : List (Option Section)) (s : Section),
        s ∈ writeSectionsCollect outcomes ↔ some s ∈ outcomes) ∧
    (∀ outcomes : List CellOutcome,
        (∀ o ∈ outcomes, o ≠ CellOutcome.guidanceExhausted ∧
          o ≠ CellOutcome.missingRow) →
        refineAllCellsCollect outcomes =
          Except.ok (outcomes.filterMap (fun o =>
            match o with
            | CellOutcome.success f => some f
            | _ => none))) := by
  constructor
  · intro outcomes s
    simp [writeSectionsCollect, List.mem_filterMap]
  · intro outcomes
    induction outcomes with
    | nil => intro h; rfl
    | cons o rest ih =>
        intro h
        have hrest := ih (fun x hx => h x (List.mem_cons_of_mem o hx))
        cases o with
        | missingRow =>
            exact absurd rfl (h _ (List.mem_cons_self _ _)).2
        | emptyRow =>
            simpa [refineAllCellsCollect, processSingleCell,
              List.filterMap_cons] using hrest
        | guidanceExhausted =>
            exact absurd rfl (h _ (List.mem_cons_self _ _)).1
        | factExhausted =>
            simpa [refineAllCellsCollect, processSingleCell,
              List.filterMap_cons] using hrest
        | success f =>
            simp [refineAllCellsCollect, processSingleCell,
              List.filterMap_cons, hrest, Except.map]

/-- C2 (witness): concrete instances of both fan-out guarantees. -/
theorem claim_C2_fanout_isolation_witness :
    (sOne ∈ writeSectionsCollect [some sOne, none] ↔ some sOne ∈ [some sOne, none]) ∧
    refineAllCellsCollect [CellOutcome.success gPlain, CellOutcome.emptyRow] =
      Except.ok ([CellOutcome.success gPlain, CellOutcome.emptyRow].filterMap (fun o =>
        match o with
        | CellOutcome.success f => some f
        | _ => none)) :=
  ⟨claim_C2_fanout_isolation.1 [some sOne, none] sOne,
   claim_C2_fanout_isolation.2 [CellOutcome.success gPlain, CellOutcome.emptyRow]
     (by decide)⟩

/-- C5 (counterexample): for a fact record with a non-empty sub-fact
mapping consulted by its parent fact statement, `repair_section`
includes the parent fact statement with the top-level
writing-guidance in its fact list (followed by the sub-facts), so the
parent is not replaced by the sub-facts in every downstream consumer
as claimed. -/
theorem claim_C5_counterexample :
    gSplit.sub_facts ≠ [] ∧
    repairFactEntryPairs gSplit gSplit.fact =
      (gSplit.fact, gSplit.writing_guidance) :: gSplit.sub_facts ∧
    repairSectionFactLines planConsultF [gSplit] =
      [mkFactLine "F" "", mkFactLine "S1" "g1", mkFactLine "S2" "g2"] := by
  refine ⟨by decide, by decide, by decide⟩

/-- C5 (amended): when the sub-fact mapping is non-empty (and the
parent statement is not itself a sub-fact key), `write_section` and
`verify_section` emit only sub-facts with their sub-guidance and never
the parent fact with the top-level guidance; the split branch of
`_generate_fact_guidance` stores the record with an empty top-level
guidance; but in `repair_section` a fact consulted by a statement that
is not a sub-fact key — in particular the parent statement —
contributes that statement with the top-level guidance followed by all
sub-facts. -/
theorem claim_C5_subfacts_replace_parent (o : FactWritingGuidance) (s : String)
    (hsub : o.sub_facts ≠ [])
    (hf : o.fact ∉ o.sub_facts.map Prod.fst) :
    (∀ p ∈ writeFactEntryPairs o s, p ∈ o.sub_facts) ∧
    (o.fact, o.writing_guidance) ∉ writeFactEntryPairs o s ∧
    (∀ p ∈ verifyFactEntryPairs o s, p ∈ o.sub_facts) ∧
    (o.fact, o.writing_guidance) ∉ verifyFactEntryPairs o s ∧
    (splitFactGuidance o.primary_key o.attr o.fact o.sub_facts).writing_guidance = "" ∧
    (s ∉ o.sub_facts.map Prod.fst →
      repairFactEntryPairs o s = (s, o.writing_guidance) :: o.sub_facts) := by
  have hempty : o.sub_facts.isEmpty = false := by
    cases hsf : o.sub_facts with
    | nil => exact absurd hsf hsub
    | cons a l => rfl
  cases hlk : o.sub_facts.lookup s with
  | some g =>
      have hmemg : (s, g) ∈ o.sub_facts := lookup_mem hlk
      have hskey : s ∈ o.sub_facts.map Prod.fst :=
        List.mem_map_of_mem Prod.fst hmemg
      refine ⟨?_, ?_, ?_, ?_, rfl, ?_⟩
      · intro p hp
        simp [writeFactEntryPairs, hlk] at hp
        simpa [hp] using hmemg
      · intro hcon
        simp [writeFactEntryPairs, hlk] at hcon
        exact hf (hcon.1 ▸ hskey)
      · intro p hp
        simp [verifyFactEntryPairs, hlk] at hp
        simpa [hp] using hmemg
      · intro hcon
        simp [verifyFactEntryPairs, hlk] at hcon
        exact hf (hcon.1 ▸ hskey)
      · intro hns
        exact absurd hskey hns
  | none =>
      refine ⟨?_, ?_, ?_, ?_, rfl, ?_⟩
      · intro p hp
        simpa [writeFactEntryPairs, hlk, hempty] using hp
      · intro hcon
        simp [writeFactEntryPairs, hlk, hempty] at hcon
        exact hf (List.mem_map_of_mem Prod.fst hcon)
      · intro p hp
        simpa [verifyFactEntryPairs, hlk, hempty] using hp
      · intro hcon
        simp [verifyFactEntryPairs, hlk, hempty] at hcon
        exact hf (List.mem_map_of_mem Prod.fst hcon)
      · intro hns
        simp [repairFactEntryPairs, hlk]

/-- C5 (witness): the amended statement at the concrete split record,
consulted by its parent statement. -/
theorem claim_C5_subfacts_replace_parent_witness :
    (∀ p ∈ writeFactEntryPairs gSplit "F", p ∈ gSplit.sub_facts) ∧
    (gSplit.fact, gSplit.writing_guidance) ∉ writeFactEntryPairs gSplit "F" ∧
    (∀ p ∈ verifyFactEntryPairs gSplit "F", p ∈ gSplit.sub_facts) ∧
    (gSplit.fact, gSplit.writing_guidance) ∉ verifyFactEntryPairs gSplit "F" ∧
    (splitFactGuidance gSplit.primary_key gSplit.attr gSplit.fact
      gSplit.sub_facts).writing_guidance = "" ∧
    ("F" ∉ gSplit.sub_facts.map Prod.fst →
      repairFactEntryPairs gSplit "F" =
        ("F", gSplit.writing_guidance) :: gSplit.sub_facts) :=
  claim_C5_subfacts_replace_parent gSplit "F" (by decide) (by decide)

/-- C6 (counterexample): a strategy assignment that covers every
eligible cell but additionally carries an entry for the primary-key
cell `"r1,id"` passes `_validate_strategy_assignment` (only missing
cells are checked), contradicting the claim that an accepted
assignment contains no entry for a primary-key cell. -/
theorem claim_C6_counterexample :
    validateStrategyAssignment aExtra tSmall = true ∧
    "r1,id" ∈ aExtra.assignments.map Prod.fst ∧
    "r1,id" ∉ nonemptyCells tSmall := by
  refine ⟨by decide, by decide, by decide⟩

/-- C6 (amended): an accepted strategy assignment contains every
non-empty non-primary-key cell of the table exactly once as a key
(keys are Python dict keys, hence pairwise distinct); the validator
does not reject extra entries, so entries outside the eligible cell
set may also be present. -/
theorem claim_C6_cell_coverage (t : TableData) (a : StrategyAssignment)
    (hacc : validateStrategyAssignment a t = true)
    (hkeys : (a.assignments.map Prod.fst).Nodup) :
    ∀ c ∈ nonemptyCells t, (a.assignments.map Prod.fst).count c = 1 := by
  intro c hc
  have hacc' : (nonemptyCells t \ (a.assignments.map Prod.fst).toFinset) = ∅ := by
    simpa [validateStrategyAssignment] using hacc
  have hsub : nonemptyCells t ⊆ (a.assignments.map Prod.fst).toFinset :=
    Finset.sdiff_eq_empty_iff_subset.mp hacc'
  exact List.count_eq_one_of_mem hkeys (List.mem_toFinset.mp (hsub hc))

/-- C6 (witness): the amended statement at the small table with the
exactly-covering assignment. -/
theorem claim_C6_cell_coverage_witness :
    (aExact.assignments.map Prod.fst).count "r1,a" = 1 :=
  claim_C6_cell_coverage tSmall aExact (by decide) (by decide) "r1,a" (by decide)

/-- C9: when the strategize stage is disabled, `assign_strategies`
issues no generation call and returns an assignment mapping exactly
the eligible (non-empty, non-primary-key) cells to empty tag lists;
on the scenario table (2 rows, single primary key, 3 fully populated
non-key columns) the returned assignment has exactly 6 keyed entries,
all mapped to empty lists. -/
theorem claim_C9_disabled_strategize :
    (∀ (t : TableData) (oracle : List AssignAttempt),
      (assignStrategies false t oracle).2 = 0 ∧
      ∃ a, (assignStrategies false t oracle).1 = some a ∧
        (a.assignments.map Prod.fst).toFinset = nonemptyCells t ∧
        ∀ p ∈ a.assignments, p.2 = ([] : List String)) ∧
    ((assignStrategies false tScenario []).1.map
        (fun a => a.assignments.length) = some 6) ∧
    ((assignStrategies false tScenario []).1.map
        (fun a => a.assignments.all (fun p => p.2.isEmpty)) = some true) := by
  refine ⟨?_, by decide, by decide⟩
  intro t oracle
  refine ⟨rfl, ⟨⟨(nonemptyCellsList t).map (fun c => (c, []))⟩, rfl, ?_, ?_⟩⟩
  · have : (Prod.fst ∘ fun c : String => (c, ([] : List String))) = id := rfl
    simp [nonemptyCells, List.map_map, this]
  · intro p hp
    simp at hp
    obtain ⟨c, -, rfl⟩ := hp
    rfl

/-- Helper for C1: a plan returned by the retry loop of
`plan_document` passed `_validate_document_plan`. -/
theorem planDocumentLoop_some_valid (facts : List String) :
    ∀ (fuel : Nat) (oracle : List PlanAttempt) (msgs msgs1 : List PlanMessage)
      (plan : DocumentPlan),
      planDocumentLoop facts oracle msgs fuel = (some plan, msgs1) →
      documentPlanError facts plan = none := by
  intro fuel
  induction fuel with
  | zero =>
      intro oracle msgs msgs1 plan h
      cases oracle <;> simp [planDocumentLoop] at h
  | succ n ih =>
      intro oracle msgs msgs1 plan h
      cases oracle with
      | nil => simp [planDocumentLoop] at h
      | cons o rest =>
          cases o with
          | excA => exact ih rest msgs msgs1 plan h
          | resp raw data =>
              rw [planDocumentLoop] at h
              cases herr : documentPlanError facts (convertFactIds facts data) with
              | none =>
                  rw [herr] at h
                  injection h with h1 h2
                  injection h1 with h1
                  rw [← h1]
                  exact herr
              | some err =>
                  rw [herr] at h
                  exact ih rest _ msgs1 plan h

/-- C1 (amended): every plan returned by `plan_document` — after any
number of validator-driven retry rounds — contains every input fact in
exactly one section, and no fact (input or not) occurs twice across
sections; the validator does not reject facts outside the input set,
so such foreign facts may additionally occur (at most once each). -/
theorem claim_C1_partition (facts : List String) (oracle : List PlanAttempt)
    (msgs0 msgs1 : List PlanMessage) (plan : DocumentPlan)
    (h : planDocument facts oracle msgs0 = (some plan, msgs1)) :
    (∀ f ∈ facts, (plannedFacts plan).count f = 1) ∧ (plannedFacts plan).Nodup := by
  have herr := planDocumentLoop_some_valid facts PLAN_MAX_RETRIES oracle msgs0 msgs1 plan h
  by_cases hc : missingFacts facts plan = ∅ ∧ duplicateFacts plan = []
  case neg =>
      unfold documentPlanError at herr
      rw [if_neg hc] at herr
      exact absurd herr (by simp)
  case pos =>
      have hnodup : (plannedFacts plan).Nodup := by
        rw [List.nodup_iff_count_le_one]
        intro a
        by_contra hgt
        push_neg at hgt
        have ha : a ∈ plannedFacts plan :=
          List.count_pos_iff.mp (Nat.lt_of_lt_of_le Nat.zero_lt_one (Nat.le_of_lt hgt))
        have hmemdup : a ∈ duplicateFacts plan := by
          unfold duplicateFacts
          rw [List.mem_filter]
          exact ⟨List.mem_dedup.mpr ha, by simpa using hgt⟩
        rw [hc.2] at hmemdup
        exact absurd hmemdup (List.not_mem_nil a)
      refine ⟨?_, hnodup⟩
      intro f hf
      have hmem : f ∈ plannedFacts plan := by
        have hsub : facts.toFinset ⊆ (plannedFacts plan).toFinset :=
          Finset.sdiff_eq_empty_iff_subset.mp hc.1
        exact List.mem_toFinset.mp (hsub (List.mem_toFinset.mpr hf))
      exact List.count_eq_one_of_mem hnodup hmem

/-- C1 (witness): the amended statement on a one-fact universe with an
accepted one-section plan. -/
theorem claim_C1_partition_witness :
    (∀ f ∈ ["A"], (plannedFacts planOnlyA).count f = 1) ∧
    (plannedFacts planOnlyA).Nodup :=
  claim_C1_partition ["A"] [PlanAttempt.resp "r" planOnlyA] [] [] planOnlyA
    (by decide)

/-- C1 (counterexample): a plan whose only section carries the input
fact `A` once and additionally the foreign fact `B` passes validation
and is returned by `plan_document` — the multiset union of the
sections' fact lists is not equal to the input fact set, refuting the
claim as stated. -/
theorem claim_C1_counterexample :
    (planDocument ["A"] [PlanAttempt.resp "r" planWithExtra] []).1 =
      some planWithExtra ∧
    "B" ∈ plannedFacts planWithExtra ∧ "B" ∉ (["A"] : List String) := by
  refine ⟨by decide, by decide, by decide⟩

/-- Helper for C4: a pipeline end state whose staging cache was
deleted has a fully written artifact and an all-verified document. -/
theorem commitPhase_deleted (ss : List Section) (c : SectionCache)
    (h : (commitPhase ss c).cacheDeleted = true) :
    (commitPhase ss c).artifact = Artifact.complete (ss.map (·.content)) ∧
    ∀ s ∈ ss, s.verified = true := by
  unfold commitPhase at *
  by_cases hg : ss.countP (·.verified) ≠ ss.length
  · rw [if_pos hg] at h
    exact absurd h (by simp)
  · rw [if_neg hg]
    push_neg at hg
    exact ⟨rfl, List.countP_eq_length.mp hg⟩

/-- C4: commit is ordered "write final artifact, then delete staging
caches": in every intermediate state of the commit-and-cleanup code,
a deleted cache implies the artifact is complete (and the document all
verified), and any state in which the artifact exists at all — even
partly written — implies every section was verified; the end-to-end
pipeline likewise never reaches a deleted-cache state without a
complete artifact. -/
theorem claim_C4_commit_then_cleanup (ss : List Section) (st : Artifact × Bool)
    (hmem : st ∈ commitStates ss) :
    (st.2 = true →
      st.1 = Artifact.complete (ss.map (·.content)) ∧ ∀ s ∈ ss, s.verified = true) ∧
    (st.1 ≠ Artifact.absent → ∀ s ∈ ss, s.verified = true) ∧
    (∀ (plans : List SectionPlan) (wouts : List WriteOutcome)
        (orc : Nat → VROracle) (c0 : SectionCache),
      (processTaskPipeline plans wouts orc c0).2.cacheDeleted = true →
      (processTaskPipeline plans wouts orc c0).2.artifact =
        Artifact.complete ((processTaskPipeline plans wouts orc c0).1.map (·.content)) ∧
      ∀ s ∈ (processTaskPipeline plans wouts orc c0).1, s.verified = true) := by
  refine ⟨?_, ?_, ?_⟩
  · intro hdel
    unfold commitStates at hmem
    by_cases hg : ss.countP (·.verified) ≠ ss.length
    · rw [if_pos hg] at hmem
      simp at hmem
      rw [hmem] at hdel
      simp at hdel
    · rw [if_neg hg] at hmem
      push_neg at hg
      have hall := List.countP_eq_length.mp hg
      simp at hmem
      rcases hmem with h1 | h2 | h3 | h4
      · rw [h1] at hdel; simp at hdel
      · obtain ⟨k, -, hk⟩ := h2
        rw [← hk] at hdel
        simp at hdel
      · rw [h3] at hdel; simp at hdel
      · exact ⟨by rw [h4], hall⟩
  · intro hne
    unfold commitStates at hmem
    by_cases hg : ss.countP (·.verified) ≠ ss.length
    · rw [if_pos hg] at hmem
      simp at hmem
      rw [hmem] at hne
      simp at hne
    · push_neg at hg
      exact List.countP_eq_length.mp hg
  · intro plans wouts orc c0 hdel
    exact commitPhase_deleted _ _ hdel

/-- C4 (witness): the invariant at a concrete all-verified document in
its final (cache-deleted) state. -/
theorem claim_C4_commit_then_cleanup_witness :
    (((Artifact.complete ["c0"], true) : Artifact × Bool).2 = true →
      ((Artifact.complete ["c0"], true) : Artifact × Bool).1 =
        Artifact.complete ([sDone].map (·.content)) ∧
      ∀ s ∈ [sDone], s.verified = true) ∧
    (((Artifact.complete ["c0"], true) : Artifact × Bool).1 ≠ Artifact.absent →
      ∀ s ∈ [sDone], s.verified = true) ∧
    (∀ (plans : List SectionPlan) (wouts : List WriteOutcome)
        (orc : Nat → VROracle) (c0 : SectionCache),
      (processTaskPipeline plans wouts orc c0).2.cacheDeleted = true →
      (processTaskPipeline plans wouts orc c0).2.artifact =
        Artifact.complete ((processTaskPipeline plans wouts orc c0).1.map (·.content)) ∧
      ∀ s ∈ (processTaskPipeline plans wouts orc c0).1, s.verified = true) :=
  claim_C4_commit_then_cleanup [sDone] (Artifact.complete ["c0"], true) (by decide)

/-- Helper for C3: the verify/repair task preserves the section id and
writes exactly the returned section to the cache. -/
theorem verify_repair_section_taskM_spec (s : Section)
    (vo : LLMOutcome VerificationResult) (ro : LLMOutcome String)
    (c : SectionCache) :
    (verify_repair_section_taskM s vo ro c).1.section_id = s.section_id ∧
    (verify_repair_section_taskM s vo ro c).2 =
      cacheStore c (verify_repair_section_taskM s vo ro c).1 := by
  unfold verify_repair_section_taskM
  by_cases h : (verify_sectionM vo).ok <;> simp [h]

/-- Helper for C3: one verify/repair round preserves the id sequence
of the document, touches no cache entry outside the processed ids,
and — when ids are distinct and every section's latest state is
cached — maintains that invariant. -/
theorem vrRound_spec (plans : List SectionPlan) (orc : VROracle) :
    ∀ (ss : List Section) (c : SectionCache),
      ((vrRound plans orc ss c).1.map (·.section_id) = ss.map (·.section_id)) ∧
      (∀ i, i ∉ ss.map (·.section_id) →
        cacheFind (vrRound plans orc ss c).2 i = cacheFind c i) ∧
      ((ss.map (·.section_id)).Nodup →
        (∀ s ∈ ss, cacheFind c s.section_id = some s) →
        ∀ s ∈ (vrRound plans orc ss c).1,
          cacheFind (vrRound plans orc ss c).2 s.section_id = some s) := by
  intro ss
  induction ss with
  | nil =>
      intro c
      exact ⟨rfl, fun i _ => rfl, fun _ _ s hs => absurd hs (List.not_mem_nil s)⟩
  | cons s rest ih =>
      intro c
      by_cases hv : s.verified = true
      · have hred : vrRound plans orc (s :: rest) c =
            (s :: (vrRound plans orc rest c).1, (vrRound plans orc rest c).2) := by
          simp [vrRound, hv]
        rw [hred]
        refine ⟨?_, ?_, ?_⟩
        · simpa using (ih c).1
        · intro i hi
          rw [List.map_cons, List.mem_cons, not_or] at hi
          exact (ih c).2.1 i hi.2
        · intro hnd hinv t ht
          rw [List.map_cons, List.nodup_cons] at hnd
          rcases List.mem_cons.mp ht with rfl | htr
          · rw [(ih c).2.1 t.section_id hnd.1]
            exact hinv t (List.mem_cons_self t rest)
          · exact (ih c).2.2 hnd.2 (fun u hu => hinv u (List.mem_cons_of_mem s hu)) t htr
      · by_cases hp : (plans.find? (fun sp => sp.section_id == s.section_id)).isSome
        · have htask := verify_repair_section_taskM_spec s (orc s.section_id).1
            (orc s.section_id).2 c
          set s₁ := (verify_repair_section_taskM s (orc s.section_id).1
            (orc s.section_id).2 c).1 with hs₁
          have hc₁ : (verify_repair_section_taskM s (orc s.section_id).1
              (orc s.section_id).2 c).2 = cacheStore c s₁ := htask.2
          have hid : s₁.section_id = s.section_id := htask.1
          have hred : vrRound plans orc (s :: rest) c =
              (s₁ :: (vrRound plans orc rest (cacheStore c s₁)).1,
               (vrRound plans orc rest (cacheStore c s₁)).2) := by
            simp only [vrRound, hv, hp, if_true, if_false]
            rw [← hs₁, hc₁]
            rfl
          rw [hred]
          refine ⟨?_, ?_, ?_⟩
          · simpa [hid] using (ih (cacheStore c s₁)).1
          · intro i hi
            rw [List.map_cons, List.mem_cons, not_or] at hi
            rw [(ih (cacheStore c s₁)).2.1 i hi.2]
            rw [cacheFind_store]
            rw [if_neg (by rw [hid]; exact hi.1)]
          · intro hnd hinv t ht
            rw [List.map_cons, List.nodup_cons] at hnd
            rcases List.mem_cons.mp ht with rfl | htr
            · rw [(ih (cacheStore c s₁)).2.1 s₁.section_id (by rw [hid]; exact hnd.1)]
              rw [cacheFind_store, if_pos rfl]
            · refine (ih (cacheStore c s₁)).2.2 hnd.2 ?_ t htr
              intro u hu
              have hneq : u.section_id ≠ s₁.section_id := by
                rw [hid]
                intro hcon
                have hm : u.section_id ∈ rest.map (·.section_id) :=
                  List.mem_map_of_mem (·.section_id) hu
                rw [hcon] at hm
                exact hnd.1 hm
              rw [cacheFind_store, if_neg hneq]
              exact hinv u (List.mem_cons_of_mem s hu)
        · have hred : vrRound plans orc (s :: rest) c =
              (s :: (vrRound plans orc rest c).1, (vrRound plans orc rest c).2) := by
            simp [vrRound, hv, hp]
          rw [hred]
          refine ⟨?_, ?_, ?_⟩
          · simpa using (ih c).1
          · intro i hi
            rw [List.map_cons, List.mem_cons, not_or] at hi
            exact (ih c).2.1 i hi.2
          · intro hnd hinv t ht
            rw [List.map_cons, List.nodup_cons] at hnd
            rcases List.mem_cons.mp ht with rfl | htr
            · rw [(ih c).2.1 t.section_id hnd.1]
              exact hinv t (List.mem_cons_self t rest)
            · exact (ih c).2.2 hnd.2 (fun u hu => hinv u (List.mem_cons_of_mem s hu)) t htr

/-- Helper for C3: the bounded verify/repair loop preserves the id
sequence and the everything-cached invariant. -/
theorem vrLoop_spec (plans : List SectionPlan) (orc : Nat → VROracle) :
    ∀ (fuel : Nat) (ss : List Section) (c : SectionCache),
      ((vrLoop plans orc fuel ss c).1.map (·.section_id) = ss.map (·.section_id)) ∧
      ((ss.map (·.section_id)).Nodup →
        (∀ s ∈ ss, cacheFind c s.section_id = some s) →
        ∀ s ∈ (vrLoop plans orc fuel ss c).1,
          cacheFind (vrLoop plans orc fuel ss c).2 s.section_id = some s) := by
  intro fuel
  induction fuel with
  | zero => intro ss c; exact ⟨rfl, fun _ hinv s hs => hinv s hs⟩
  | succ n ih =>
      intro ss c
      by_cases hall : ss.all (·.verified) = true
      · have hred : vrLoop plans orc (n + 1) ss c = (ss, c) := by
          simp [vrLoop, hall]
        rw [hred]
        exact ⟨rfl, fun _ hinv s hs => hinv s hs⟩
      · have hred : vrLoop plans orc (n + 1) ss c =
            vrLoop plans orc n (vrRound plans (orc n) ss c).1
              (vrRound plans (orc n) ss c).2 := by
          simp [vrLoop, hall]
        rw [hred]
        have hR := vrRound_spec plans (orc n) ss c
        refine ⟨?_, ?_⟩
        · rw [(ih _ _).1, hR.1]
        · intro hnd hinv
          exact (ih _ _).2 (by rw [hR.1]; exact hnd) (hR.2.2 hnd hinv)

/-- Helper for C3: the write fan-out with a fresh cache and no raising
unit produces one unverified section per plan (same ids in order) and
leaves every produced section stored in its cache slot. -/
theorem writeStage_no_exc :
    ∀ (plans : List SectionPlan) (wouts : List WriteOutcome) (c : SectionCache),
      wouts.length = plans.length →
      (∀ o ∈ wouts, o ≠ WriteOutcome.excW) →
      (∀ p ∈ plans, cacheFind c p.section_id = none) →
      (plans.map (·.section_id)).Nodup →
      ((writeSectionsCollect (writeStage plans wouts c).1).map (·.section_id) =
        plans.map (·.section_id)) ∧
      (∀ i, i ∉ plans.map (·.section_id) →
        cacheFind (writeStage plans wouts c).2 i = cacheFind c i) ∧
      (∀ s ∈ writeSectionsCollect (writeStage plans wouts c).1,
        cacheFind (writeStage plans wouts c).2 s.section_id = some s) := by
  intro plans
  induction plans with
  | nil =>
      intro wouts c _ _ _ _
      exact ⟨rfl, fun i _ => rfl, by simp [writeStage, writeSectionsCollect]⟩
  | cons p ps ih =>
      intro wouts c hlen hok hfresh hnodup
      rw [List.map_cons, List.nodup_cons] at hnodup
      cases wouts with
      | nil => simp at hlen
      | cons o os =>
          have hfp : cacheFind c p.section_id = none :=
            hfresh p (List.mem_cons_self p ps)
          cases o with
          | excW => exact absurd rfl (hok _ (List.mem_cons_self _ os))
          | generated content =>
              have htask : write_section_taskM p (WriteOutcome.generated content) c =
                  (some ⟨p.section_id, p.title, content, false⟩,
                   cacheStore c ⟨p.section_id, p.title, content, false⟩) := by
                unfold write_section_taskM
                rw [hfp]
              have hred : writeStage (p :: ps) (WriteOutcome.generated content :: os) c =
                  (some ⟨p.section_id, p.title, content, false⟩ ::
                    (writeStage ps os
                      (cacheStore c ⟨p.section_id, p.title, content, false⟩)).1,
                   (writeStage ps os
                      (cacheStore c ⟨p.section_id, p.title, content, false⟩)).2) := by
                rw [writeStage]
                simp only [List.headD, List.tail, htask]
              have hfresh2 : ∀ q ∈ ps,
                  cacheFind (cacheStore c ⟨p.section_id, p.title, content, false⟩)
                    q.section_id = none := by
                intro q hq
                rw [cacheFind_store]
                rw [if_neg (by
                  intro hcon
                  have hm : q.section_id ∈ ps.map (·.section_id) :=
                    List.mem_map_of_mem (·.section_id) hq
                  rw [hcon] at hm
                  exact hnodup.1 hm)]
                exact hfresh q (List.mem_cons_of_mem p hq)
              have hih := ih os (cacheStore c ⟨p.section_id, p.title, content, false⟩)
                (by simpa using hlen) (fun x hx => hok x (List.mem_cons_of_mem _ hx))
                hfresh2 hnodup.2
              rw [hred]
              refine ⟨?_, ?_, ?_⟩
              · simpa [writeSectionsCollect] using hih.1
              · intro i hi
                rw [List.map_cons, List.mem_cons, not_or] at hi
                rw [hih.2.1 i hi.2, cacheFind_store, if_neg hi.1]
              · intro s hs
                have hs' : s = ⟨p.section_id, p.title, content, false⟩ ∨
                    some s ∈ (writeStage ps os
                      (cacheStore c ⟨p.section_id, p.title, content, false⟩)).1 := by
                  simpa [writeSectionsCollect] using hs
                rcases hs' with rfl | htr
                · have hid : (⟨p.section_id, p.title, content, false⟩ :
                      Section).section_id = p.section_id := rfl
                  rw [hid, hih.2.1 _ hnodup.1, cacheFind_store, if_pos rfl]
                · exact hih.2.2 s (List.mem_filterMap.mpr ⟨some s, htr, rfl⟩)

/-- Helper for C3: the commit gate either commits (all sections
verified, artifact complete, caches deleted) or declines (artifact
absent, caches alive with every section's latest state). -/
theorem pipelineEnd_dichotomy (ss : List Section) (c : SectionCache)
    (hinv : ∀ s ∈ ss, cacheFind c s.section_id = some s) :
    (ss.all (·.verified) = true ∧
     (commitPhase ss c).artifact = Artifact.complete (ss.map (·.content)) ∧
     (commitPhase ss c).cacheDeleted = true) ∨
    (ss.all (·.verified) = false ∧
     (commitPhase ss c).artifact = Artifact.absent ∧
     (commitPhase ss c).cacheDeleted = false ∧
     ∀ s ∈ ss, cacheFind (commitPhase ss c).cache s.section_id = some s) := by
  by_cases hgate : ss.countP (·.verified) = ss.length
  · left
    refine ⟨List.all_eq_true.mpr (List.countP_eq_length.mp hgate), ?_, ?_⟩
    · simp [commitPhase, hgate]
    · simp [commitPhase, hgate]
  · right
    have hnall : ss.all (·.verified) = false := by
      cases hb : ss.all (·.verified)
      · rfl
      · exact absurd (List.countP_eq_length.mpr (List.all_eq_true.mp hb)) hgate
    refine ⟨hnall, ?_, ?_, ?_⟩
    · simp [commitPhase, hgate]
    · simp [commitPhase, hgate]
    · intro s hs
      simp only [commitPhase, if_pos hgate]
      exact hinv s hs

/-- C3 (amended): for a document all of whose planned sections are
written successfully (no write-unit failure), processed under the
round budget, exactly one of the following holds: every section is
verified, the final artifact is committed (and staging caches
removed); or the artifact is absent, the staging caches are not
deleted, and every section's latest content is retrievable from its
per-section cache entry.  The id sequence of the final document equals
the planned one.  (If a write unit fails, its section is silently
dropped and the gate only checks the surviving sections — see the
counterexample.) -/
theorem claim_C3_convergence_or_honest_failure
    (plans : List SectionPlan) (wouts : List WriteOutcome) (orc : Nat → VROracle)
    (hnodup : (plans.map (·.section_id)).Nodup)
    (hlen : wouts.length = plans.length)
    (hok : ∀ o ∈ wouts, o ≠ WriteOutcome.excW) :
    ((processTaskPipeline plans wouts orc []).1.map (·.section_id) =
      plans.map (·.section_id)) ∧
    (((processTaskPipeline plans wouts orc []).1.all (·.verified) = true ∧
      (processTaskPipeline plans wouts orc []).2.artifact =
        Artifact.complete ((processTaskPipeline plans wouts orc []).1.map (·.content)) ∧
      (processTaskPipeline plans wouts orc []).2.cacheDeleted = true) ∨
     ((processTaskPipeline plans wouts orc []).1.all (·.verified) = false ∧
      (processTaskPipeline plans wouts orc []).2.artifact = Artifact.absent ∧
      (processTaskPipeline plans wouts orc []).2.cacheDeleted = false ∧
      ∀ s ∈ (processTaskPipeline plans wouts orc []).1,
        cacheFind (processTaskPipeline plans wouts orc []).2.cache s.section_id =
          some s)) := by
  have hw := writeStage_no_exc plans wouts [] hlen hok (fun p _ => rfl) hnodup
  have hv := vrLoop_spec plans orc VERIFY_AND_REPAIR_MAX_RETRIES
    (writeSectionsCollect (writeStage plans wouts []).1) (writeStage plans wouts []).2
  have hids : (vrLoop plans orc VERIFY_AND_REPAIR_MAX_RETRIES
      (writeSectionsCollect (writeStage plans wouts []).1)
      (writeStage plans wouts []).2).1.map (·.section_id) =
      plans.map (·.section_id) := by
    rw [hv.1, hw.1]
  have hinv : ∀ s ∈ (vrLoop plans orc VERIFY_AND_REPAIR_MAX_RETRIES
      (writeSectionsCollect (writeStage plans wouts []).1)
      (writeStage plans wouts []).2).1,
      cacheFind (vrLoop plans orc VERIFY_AND_REPAIR_MAX_RETRIES
        (writeSectionsCollect (writeStage plans wouts []).1)
        (writeStage plans wouts []).2).2 s.section_id = some s :=
    hv.2 (by rw [hw.1]; exact hnodup) hw.2.2
  exact ⟨hids, pipelineEnd_dichotomy _ _ hinv⟩

/-- C3 (counterexample): with one planned section whose write raises,
the document collapses to zero sections, the commit gate passes
vacuously, and an (empty) final artifact is committed with the staging
caches deleted — even though the planned section never reached the
verified state, refuting the claimed dichotomy over the `S` planned
sections. -/
theorem claim_C3_counterexample :
    [spZero].length = 1 ∧
    (processTaskPipeline [spZero] [WriteOutcome.excW] orcAllFail []).1 = [] ∧
    (processTaskPipeline [spZero] [WriteOutcome.excW] orcAllFail []).2.artifact =
      Artifact.complete [] ∧
    (processTaskPipeline [spZero] [WriteOutcome.excW] orcAllFail []).2.cacheDeleted =
      true :=
  ⟨rfl, rfl, rfl, rfl⟩

/-- C3 (witness): the amended dichotomy at a one-section document
whose write succeeds and whose verification passes in round one. -/
theorem claim_C3_convergence_or_honest_failure_witness :
    (((processTaskPipeline [spZero] [WriteOutcome.generated "c0"] orcAllPass []).1.map
        (·.section_id) = [spZero].map (·.section_id)) ∧
     (((processTaskPipeline [spZero] [WriteOutcome.generated "c0"] orcAllPass []).1.all
          (·.verified) = true ∧
       (processTaskPipeline [spZero] [WriteOutcome.generated "c0"] orcAllPass []).2.artifact =
         Artifact.complete ((processTaskPipeline [spZero] [WriteOutcome.generated "c0"]
           orcAllPass []).1.map (·.content)) ∧
       (processTaskPipeline [spZero] [WriteOutcome.generated "c0"]
         orcAllPass []).2.cacheDeleted = true) ∨
      (((processTaskPipeline [spZero] [WriteOutcome.generated "c0"] orcAllPass []).1.all
          (·.verified) = false) ∧
       (processTaskPipeline [spZero] [WriteOutcome.generated "c0"]
         orcAllPass []).2.artifact = Artifact.absent ∧
       (processTaskPipeline [spZero] [WriteOutcome.generated "c0"]
         orcAllPass []).2.cacheDeleted = false ∧
       ∀ s ∈ (processTaskPipeline [spZero] [WriteOutcome.generated "c0"] orcAllPass []).1,
         cacheFind (processTaskPipeline [spZero] [WriteOutcome.generated "c0"]
           orcAllPass []).2.cache s.section_id = some s))) :=
  claim_C3_convergence_or_honest_failure [spZero] [WriteOutcome.generated "c0"]
    orcAllPass (by decide) (by decide) (by decide)

end DTBench
